import Mathlib

/-!
A shallow embedding, in Lean 4, of the core data model and operations of the
ape-dts data-replication engine slice:

* the Postgres check extractor (`PgCheckExtractor::batch_extract`,
  `build_check_row_datas`) from
  `dt-connector/src/extractor/pg/pg_check_extractor.rs`;
* the MySQL struct extractor (`MysqlStructExtractor::extract_internal`,
  `push_dt_data`) from
  `dt-connector/src/extractor/mysql/mysql_struct_extractor.rs`;
* the row-comparison engine of the RDB test runner
  (`compare_data_for_tbs`, `compare_tb_data`, `compare_row_data`,
  `compare_col_value`, `get_compare_db_tbs`, `get_compare_db_tbs_from_sqls`,
  the filtered-table removal loop of `run_ddl_test`) from
  `dt-tests/tests/test_runner/rdb_test_runner.rs`.

Rust functions returning `Result` are embedded as functions into `RustResult`,
which distinguishes an `Err` return from a panic (`unwrap` on `None`/`Err`,
failed `assert!`, out-of-bounds indexing).  Databases, connection pools,
the engine-specific value convertor and the query builder are external
collaborators of the embedded slice; they enter as explicit function
parameters (packaged in environment structures), so each theorem quantifies
over their behaviour.  Buffer pushes are reified: an extractor returns the
list of items it pushed, in push order.
-/

/-- Outcome of running a Rust function that may return `Err` or panic.
`err` models an `Err(...)` return (the `?` operator propagates it);
`panic` models a process-aborting panic (`unwrap()` on `None`/`Err`,
`assert!` failure, slice index out of bounds), carrying the panic message. -/
inductive RustResult (α : Type) where
  | ok (val : α)
  | err (msg : String)
  | panic (msg : String)
deriving DecidableEq, Repr

namespace RustResult

/-- Sequencing of fallible Rust steps: `ok` continues, `err` and `panic`
short-circuit (the `?` operator, and a panic aborting the function). -/
def bind {α β : Type} : RustResult α → (α → RustResult β) → RustResult β
  | ok v, f => f v
  | err m, _ => err m
  | panic m, _ => panic m

@[simp] theorem bind_ok {α β : Type} (v : α) (f : α → RustResult β) :
    bind (ok v) f = f v := rfl

@[simp] theorem bind_err {α β : Type} (m : String) (f : α → RustResult β) :
    bind (err m) f = err m := rfl

@[simp] theorem bind_panic {α β : Type} (m : String) (f : α → RustResult β) :
    bind (panic m) f = panic m := rfl

/-- `true` exactly on an `Err` return. -/
def isErr {α : Type} : RustResult α → Bool
  | ok _ => false
  | err _ => true
  | panic _ => false

end RustResult

/-- Panic message of `Option::unwrap` on `None`. -/
def unwrapNoneMsg : String := "called Option::unwrap on a None value"

/-- Panic message of slice indexing out of bounds. -/
def indexOobMsg : String := "index out of bounds"

/-- `Option::unwrap`: the value on `Some`, a panic on `None`. -/
def Option.unwrapRust {α : Type} : Option α → RustResult α
  | some v => .ok v
  | none => .panic unwrapNoneMsg

/-- Association-list lookup, embedding `HashMap::get` (first binding wins;
`insertAssoc` keeps at most one binding per key). -/
def lookupAssoc {α : Type} (m : List (String × α)) (k : String) : Option α :=
  match m.find? (fun p => p.1 == k) with
  | some p => some p.2
  | none => none

/-- Association-list insert, embedding `HashMap::insert`: replaces any
existing binding of the key. -/
def insertAssoc {α : Type} (m : List (String × α)) (k : String) (v : α) :
    List (String × α) :=
  (k, v) :: m.filter (fun p => !(p.1 == k))

/-! ## Engine and row-model enumerations

`DbType`, `LogType`, `RowType`, `DdlType` mirror the enumerations of
`dt_common::config::config_enums` and `dt_meta` used by the embedded slice. -/

/-- Database engine kind (`DbType`), as distinguished by the surveyed code. -/
inductive DbType where
  | mysql
  | pg
  | starrocks
deriving DecidableEq, Repr

/-- Check-log line kind (`LogType`): a missed row or a differing row. -/
inductive LogType where
  | miss
  | diff
deriving DecidableEq, Repr

/-- Row-change kind (`RowType`). -/
inductive RowType where
  | insert
  | update
  | delete
deriving DecidableEq, Repr

/-- DDL statement kind (`DdlType`), restricted to the cases the embedded
slice inspects. -/
inductive DdlType where
  | createTable
  | dropTable
  | alterTable
  | unknown
deriving DecidableEq, Repr

/-! ## Column values

Modelled from the spec: `ColValue` (not part of the surveyed slice) is "a
tagged variant over the union of scalar types expressible by supported
engines"; "It has a total equality, an `is_nan` predicate, and a
`to_option_string` projection used only for cross-engine comparison."
Floating-point payloads are embedded as `FloatRepr`, which keeps exactly the
structure the comparison engine observes: a value is NaN or a finite number,
NaN compares unequal to everything (Rust's derived `PartialEq` over `f32` /
`f64`), and finite numbers compare by value. -/

/-- A floating-point payload as the comparison engine observes it:
NaN or a finite value. -/
inductive FloatRepr where
  | nan
  | num (v : Int)
deriving DecidableEq, Repr

/-- Rust `PartialEq` on floats: NaN is unequal to everything, itself
included; finite values compare by value. -/
def FloatRepr.eqRust : FloatRepr → FloatRepr → Bool
  | .nan, _ => false
  | _, .nan => false
  | .num a, .num b => a == b

/-- Printing a float payload (`to_string`); NaN prints as `"NaN"`. -/
def FloatRepr.printRust : FloatRepr → String
  | .nan => "NaN"
  | .num v => toString v

/-- Modelled from the spec: the engine-neutral tagged column value
(`ColValue`).  Variants beyond these change nothing observed by the
comparison engine. -/
inductive ColValue where
  | none
  | long (v : Int)
  | float (v : FloatRepr)
  | double (v : FloatRepr)
  | str (v : String)
deriving DecidableEq, Repr

namespace ColValue

/-- Rust's derived `PartialEq` on `ColValue`: structural, with `f32`/`f64`
payloads compared by IEEE equality (NaN ≠ NaN). -/
def eqRust : ColValue → ColValue → Bool
  | .none, .none => true
  | .long a, .long b => a == b
  | .float a, .float b => a.eqRust b
  | .double a, .double b => a.eqRust b
  | .str a, .str b => a == b
  | _, _ => false

/-- `ColValue::is_nan`: true exactly on a floating variant holding NaN. -/
def is_nan : ColValue → Bool
  | .float .nan => true
  | .double .nan => true
  | _ => false

/-- `ColValue::to_option_string`: the string projection used only for
cross-engine comparison; `None` projects to `Option.none`. -/
def to_option_string : ColValue → Option String
  | .none => Option.none
  | .long v => some (toString v)
  | .float v => some v.printRust
  | .double v => some v.printRust
  | .str v => some v

end ColValue

/-- `RdbTestRunner::compare_col_value`
(`dt-tests/tests/test_runner/rdb_test_runner.rs`): tagged equality first,
then the both-NaN escape, then — only across distinct engines — the
string-projection comparison, otherwise a mismatch. -/
def compare_col_value (src_col_value dst_col_value : ColValue)
    (src_db_type dst_db_type : DbType) : Bool :=
  if !(src_col_value.eqRust dst_col_value) then
    if src_col_value.is_nan && dst_col_value.is_nan then
      true
    else if src_db_type ≠ dst_db_type then
      src_col_value.to_option_string == dst_col_value.to_option_string
    else
      false
  else
    true

/-! ## Rows and routing -/

/-- A column map (`HashMap<String, ColValue>`), embedded as an association
list with at most one binding per key by construction. -/
abbrev ColMap := List (String × ColValue)

/-- `RowData` (`dt_meta::row_data`): the engine-neutral row with optional
before/after images.  Modelled from the spec: "Insert has `after` only;
Delete has `before` only; Update has both." -/
structure RowData where
  schema : String
  tb : String
  row_type : RowType
  before : Option ColMap
  after : Option ColMap
deriving DecidableEq, Repr

/-- A `(db, tb)` pair. -/
abbrev DbTb := String × String

/-- Modelled from the spec: `RdbRouter` holds declarative
`tb_map : (db, tb) → (db', tb')` and `col_map : (db, tb) → Map<col, col'>`
tables; "Lookups always succeed (identity fallback)." -/
structure RdbRouter where
  tb_map : List (DbTb × DbTb)
  col_map : List (DbTb × List (String × String))
deriving Repr

namespace RdbRouter

/-- `RdbRouter::get_tb_map`: route a `(db, tb)` pair, identity on miss. -/
def get_tb_map (r : RdbRouter) (db tb : String) : DbTb :=
  match r.tb_map.find? (fun p => p.1 == (db, tb)) with
  | some p => p.2
  | Option.none => (db, tb)

/-- `RdbRouter::get_col_map`: the column rename map of a `(db, tb)` pair,
when one is configured. -/
def get_col_map (r : RdbRouter) (db tb : String) : Option (List (String × String)) :=
  match r.col_map.find? (fun p => p.1 == (db, tb)) with
  | some p => some p.2
  | Option.none => Option.none

/-- Rename one column through a column map, identity on miss. -/
def route_col (m : List (String × String)) (col : String) : String :=
  match lookupAssoc m col with
  | some dst => dst
  | Option.none => col

/-- Modelled from the spec: routing a row (inside `BaseExtractor::push_row`)
rewrites `(schema, tb)` through `tb_map` and renames the keys of both the
before and the after image through `col_map`; values and `row_type` are
untouched. -/
def route_row (r : RdbRouter) (row : RowData) : RowData :=
  let (dst_db, dst_tb) := r.get_tb_map row.schema row.tb
  let rename : ColMap → ColMap :=
    match r.get_col_map row.schema row.tb with
    | some m => fun cm => cm.map (fun p => (route_col m p.1, p.2))
    | Option.none => fun cm => cm
  { row with
    schema := dst_db
    tb := dst_tb
    before := row.before.map rename
    after := row.after.map rename }

end RdbRouter

/-! ## The Postgres check extractor -/

/-- A Postgres column type descriptor (`PgColType`); the embedded slice only
passes it through to the value convertor, so its name suffices. -/
abbrev PgColType := String

/-- The engine-neutral part of a table meta (`RdbTbMeta`): the schema and
table the meta describes. -/
structure RdbTbMeta where
  schema : String
  tb : String
deriving DecidableEq, Repr

/-- `PgTbMeta`: per-table schema information; the check extractor reads the
column-type map and the basic part. -/
structure PgTbMeta where
  col_type_map : List (String × PgColType)
  basic : RdbTbMeta
deriving DecidableEq, Repr

/-- `CheckLog` (`dt-connector/src/check_log`): one line of a check-log file. -/
structure CheckLog where
  schema : String
  tb : String
  log_type : LogType
  cols : List String
  col_values : List (Option String)
deriving DecidableEq, Repr

/-- A query produced by `RdbQueryBuilder`: `(sql, cols, binds)`. -/
structure PgQuery where
  sql : String
  cols : List String
  binds : List ColValue
deriving DecidableEq, Repr

/-- A raw database result row, as handed to `RowData::from_pg_row`:
its decoded after-image. -/
abbrev PgRow := ColMap

/-- The external collaborators of `PgCheckExtractor::batch_extract`:
the meta manager (`get_tb_meta`), the engine's typed value convertor
(`PgColValueConvertor::from_str`, which may return `Err` on an unparseable
value), the query builder (`get_select_query` / `get_batch_select_query`),
the database (`fetch`, the rows streamed back for a query), and the router. -/
structure PgCheckEnv where
  get_tb_meta : String → String → RustResult PgTbMeta
  from_str : PgColType → String → RustResult ColValue
  get_select_query : PgTbMeta → RowData → RustResult PgQuery
  get_batch_select_query : PgTbMeta → List RowData → RustResult PgQuery
  fetch : PgQuery → List PgRow
  router : RdbRouter

/-- Modelled from the spec: `RowData::build_insert_row_data` builds an
Insert row carrying only the after image, on the meta's `(schema, tb)`. -/
def build_insert_row_data (after : ColMap) (basic : RdbTbMeta) : RowData :=
  { schema := basic.schema
    tb := basic.tb
    row_type := RowType.insert
    before := Option.none
    after := some after }

/-- Modelled from the spec: `RowData::from_pg_row` decodes a fetched
database row into an Insert `RowData` with only an after image. -/
def from_pg_row (row : PgRow) (tb_meta : PgTbMeta) : RowData :=
  build_insert_row_data row tb_meta.basic

/-- The inner loop of `PgCheckExtractor::build_check_row_datas` over
`i in 0..check_log.cols.len()`: `check_log.col_values[i]` panics when the
value list is shorter, `col_type_map.get(col).unwrap()` panics on an
unknown column, and the convertor's `Err` propagates via `?`. -/
def build_after (env : PgCheckEnv) (tb_meta : PgTbMeta) :
    List String → List (Option String) → ColMap → RustResult ColMap
  | [], _, acc => .ok acc
  | _ :: _, [], _ => .panic indexOobMsg
  | col :: cols, value :: values, acc =>
    match (lookupAssoc tb_meta.col_type_map col).unwrapRust with
    | .err m => .err m
    | .panic m => .panic m
    | .ok col_type =>
      let conv : RustResult ColValue :=
        match value with
        | some str => env.from_str col_type str
        | Option.none => .ok ColValue.none
      match conv with
      | .err m => .err m
      | .panic m => .panic m
      | .ok col_value =>
        build_after env tb_meta cols values (insertAssoc acc col col_value)

/-- `PgCheckExtractor::build_check_row_datas`: one Insert `RowData` per
check-log line, its after image converted through the table meta. -/
def build_check_row_datas (env : PgCheckEnv) (check_logs : List CheckLog)
    (tb_meta : PgTbMeta) : RustResult (List RowData) :=
  match check_logs with
  | [] => .ok []
  | check_log :: rest =>
    (build_after env tb_meta check_log.cols check_log.col_values []).bind
      fun after =>
    (build_check_row_datas env rest tb_meta).bind fun rows =>
    .ok (build_insert_row_data after tb_meta.basic :: rows)

/-- The per-fetched-row transformation of the `batch_extract` fetch loop:
decode via `from_pg_row`; on a `Diff` batch overwrite `row_type` with
`Update` and copy `after` into `before`; route and push. -/
def push_transform (log_type : LogType) (router : RdbRouter)
    (tb_meta : PgTbMeta) (row : PgRow) : RowData :=
  let row_data := from_pg_row row tb_meta
  let row_data :=
    if log_type = LogType.diff then
      { row_data with row_type := RowType.update, before := row_data.after }
    else
      row_data
  router.route_row row_data

/-- `PgCheckExtractor::batch_extract`: the returned list is the sequence of
rows pushed onto the buffer, in push order; the `RustResult` is the
function's outcome.  An empty batch returns at once; otherwise the table
meta is resolved from the FIRST log's `(schema, tb)`, the check rows are
built, a single or batched select is generated, and every fetched row is
transformed and pushed. -/
def batch_extract (env : PgCheckEnv) (check_logs : List CheckLog) :
    List RowData × RustResult Unit :=
  match check_logs with
  | [] => ([], .ok ())
  | first :: _ =>
    match env.get_tb_meta first.schema first.tb with
    | .err m => ([], .err m)
    | .panic m => ([], .panic m)
    | .ok tb_meta =>
      match build_check_row_datas env check_logs tb_meta with
      | .err m => ([], .err m)
      | .panic m => ([], .panic m)
      | .ok check_row_datas =>
        let query : RustResult PgQuery :=
          if check_logs.length = 1 then
            match check_row_datas with
            | r :: _ => env.get_select_query tb_meta r
            | [] => .panic indexOobMsg
          else
            env.get_batch_select_query tb_meta check_row_datas
        match query with
        | .err m => ([], .err m)
        | .panic m => ([], .panic m)
        | .ok q =>
          ((env.fetch q).map (push_transform first.log_type env.router tb_meta),
            .ok ())

/-! ## The MySQL struct extractor -/

/-- Modelled from the spec: a `StructModel` is the description of one schema
object (table, index or constraint); the struct extractor passes it through
untouched, so a name suffices. -/
structure StructModel where
  name : String
deriving DecidableEq, Repr

/-- `DdlData` (`dt_meta::ddl_data`): a DDL event with an optional attached
struct model. -/
structure DdlData where
  schema : String
  query : String
  meta : Option StructModel
  ddl_type : DdlType
deriving DecidableEq, Repr

/-- One observable effect of `MysqlStructExtractor::extract_internal`:
a buffer push of a DDL item, or the terminal `wait_task_finish` call. -/
inductive MysqlExtractEvent where
  | push (d : DdlData)
  | waitTaskFinish
deriving DecidableEq, Repr

/-- `MysqlStructExtractor::push_dt_data`: wrap a `StructModel` into a
`DdlData` with empty query, `ddl_type: Unknown` and `meta: Some(...)`,
on the extractor's schema. -/
def push_dt_data (db : String) (meta : StructModel) : DdlData :=
  { schema := db
    query := ""
    meta := some meta
    ddl_type := DdlType.unknown }

/-- One `for (_, meta) in ...` loop of `extract_internal`: push each fetched
model in iteration order, appending to the event trace. -/
def push_loop (db : String) (fetched : List (String × StructModel))
    (acc : List MysqlExtractEvent) : List MysqlExtractEvent :=
  fetched.foldl (fun events p => events ++ [MysqlExtractEvent.push (push_dt_data db p.2)]) acc

/-- `MysqlStructExtractor::extract_internal`, with the fetcher's results
(`get_table`, `get_index`, `get_constraint` — the in-scope objects under the
configured schema and filter, per the spec of `MysqlStructFetcher`) passed
as explicit inputs: three push loops in the order tables → indexes →
constraints, then `wait_task_finish`.  The returned list is the trace of
observable effects. -/
def extract_internal (db : String)
    (tables indexes constraints : List (String × StructModel)) :
    List MysqlExtractEvent :=
  let events := push_loop db tables []
  let events := push_loop db indexes events
  let events := push_loop db constraints events
  events ++ [MysqlExtractEvent.waitTaskFinish]

/-! ## The row-comparison engine of the RDB test runner -/

/-- Panic message of the `assert_eq!(src_data.len(), dst_data.len())` length
assertion in `compare_row_data`. -/
def assertEqLenMsg : String := "assertion failed: left == right"

/-- Panic message of a failed `assert!` in `compare_data_for_tbs`. -/
def assertFailedMsg : String := "assertion failed"

/-- The column-rename step of the `compare_row_data` column loop: map
`src_col → dst_col` through the optional column map, identity on miss. -/
def map_src_col (col_map : Option (List (String × String))) (src_col : String) :
    String :=
  match col_map with
  | some m =>
    match lookupAssoc m src_col with
    | some dst_col => dst_col
    | Option.none => src_col
  | Option.none => src_col

/-- The per-row column loop of `compare_row_data`: for each
`(src_col, src_col_value)` of the source after image, rename through the
optional column map (identity on miss), `unwrap` the destination value
(panic when the column is absent at the destination), and compare; a
mismatch returns `false` from the whole function. -/
def compare_cols (src_db_type dst_db_type : DbType)
    (col_map : Option (List (String × String))) (dst_col_values : ColMap) :
    ColMap → RustResult Bool
  | [] => .ok true
  | (src_col, src_col_value) :: rest =>
    let dst_col := map_src_col col_map src_col
    match (lookupAssoc dst_col_values dst_col).unwrapRust with
    | .err m => .err m
    | .panic m => .panic m
    | .ok dst_col_value =>
      if compare_col_value src_col_value dst_col_value src_db_type dst_db_type then
        compare_cols src_db_type dst_db_type col_map dst_col_values rest
      else
        .ok false

/-- The row loop of `compare_row_data` over `i in 0..src_data.len()`:
`unwrap` both after images (panic on `None`), compare columns; the loop
is entered only after the length assertion, so the destination running
short is an out-of-bounds panic. -/
def compare_rows (src_db_type dst_db_type : DbType)
    (col_map : Option (List (String × String))) :
    List RowData → List RowData → RustResult Bool
  | [], _ => .ok true
  | _ :: _, [] => .panic indexOobMsg
  | s :: ss, d :: ds =>
    match s.after.unwrapRust with
    | .err m => .err m
    | .panic m => .panic m
    | .ok src_col_values =>
      match d.after.unwrapRust with
      | .err m => .err m
      | .panic m => .panic m
      | .ok dst_col_values =>
        match compare_cols src_db_type dst_db_type col_map dst_col_values
            src_col_values with
        | .err m => .err m
        | .panic m => .panic m
        | .ok true => compare_rows src_db_type dst_db_type col_map ss ds
        | .ok false => .ok false

/-- `RdbTestRunner::compare_row_data`: assert equal row counts (fatal via
`assert_eq!` when unequal), then compare row pairs in order. -/
def compare_row_data (src_db_type dst_db_type : DbType)
    (src_data dst_data : List RowData)
    (col_map : Option (List (String × String))) : RustResult Bool :=
  if src_data.length ≠ dst_data.length then
    .panic assertEqLenMsg
  else
    compare_rows src_db_type dst_db_type col_map src_data dst_data

/-- The external collaborators of the comparison engine: the filtered-table
set from `filtered_tbs.txt` (`get_filtered_db_tbs`), the two databases
(`fetch_data` on the source and destination connections), the configured
engine types and the router. -/
structure CompareEnv where
  filtered : List DbTb
  fetch_src : DbTb → RustResult (List RowData)
  fetch_dst : DbTb → RustResult (List RowData)
  src_db_type : DbType
  dst_db_type : DbType
  router : RdbRouter

/-- `RdbTestRunner::compare_tb_data`: fetch both sides, look up the column
map of the SOURCE table, and compare; a mismatch is `Ok(false)`. -/
def compare_tb_data (env : CompareEnv) (src_db_tb dst_db_tb : DbTb) :
    RustResult Bool :=
  (env.fetch_src src_db_tb).bind fun src_data =>
  (env.fetch_dst dst_db_tb).bind fun dst_data =>
  let col_map := env.router.get_col_map src_db_tb.1 src_db_tb.2
  (compare_row_data env.src_db_type env.dst_db_type src_data dst_data
      col_map).bind fun matched =>
  .ok matched

/-- List indexing as Rust's `v[i]`: panic when out of bounds. -/
def indexRust {α : Type} (l : List α) (i : Nat) : RustResult α :=
  match l[i]? with
  | some v => .ok v
  | Option.none => .panic indexOobMsg

/-- The index loop of `RdbTestRunner::compare_data_for_tbs` from index `i`
upward.  At a filtered source table the destination is fetched and a
non-empty result is a fatal `assert!(false)`; otherwise
`compare_tb_data` runs and `Ok(false)` is a fatal `assert!`.  Returns the
list of indexes actually compared (in order) together with the outcome. -/
def compare_tbs_from (env : CompareEnv) (src_db_tbs dst_db_tbs : List DbTb)
    (i : Nat) : List Nat × RustResult Bool :=
  if h : i < src_db_tbs.length then
    let src_db_tb := src_db_tbs.get ⟨i, h⟩
    if src_db_tb ∈ env.filtered then
      match (indexRust dst_db_tbs i).bind env.fetch_dst with
      | .err m => ([], .err m)
      | .panic m => ([], .panic m)
      | .ok dst_data =>
        if dst_data ≠ [] then
          ([], .panic assertFailedMsg)
        else
          compare_tbs_from env src_db_tbs dst_db_tbs (i + 1)
    else
      match (indexRust dst_db_tbs i).bind
          (fun dst_db_tb => compare_tb_data env src_db_tb dst_db_tb) with
      | .err m => ([], .err m)
      | .panic m => ([], .panic m)
      | .ok true =>
        let (compared, outcome) := compare_tbs_from env src_db_tbs dst_db_tbs (i + 1)
        (i :: compared, outcome)
      | .ok false => ([], .panic assertFailedMsg)
  else
    ([], .ok true)
termination_by src_db_tbs.length - i

/-- `RdbTestRunner::compare_data_for_tbs`: run the index loop from 0; on
completion the function returns `Ok(true)`. -/
def compare_data_for_tbs (env : CompareEnv) (src_db_tbs dst_db_tbs : List DbTb) :
    List Nat × RustResult Bool :=
  compare_tbs_from env src_db_tbs dst_db_tbs 0

/-- Index `j` "passes" the `compare_data_for_tbs` loop: a filtered source
table fetched an empty destination, an unfiltered one compared `Ok(true)`. -/
def passes_at (env : CompareEnv) (src_db_tbs dst_db_tbs : List DbTb)
    (j : Nat) : Prop :=
  ∃ (h : j < src_db_tbs.length) (hd : j < dst_db_tbs.length),
    if src_db_tbs.get ⟨j, h⟩ ∈ env.filtered then
      env.fetch_dst (dst_db_tbs.get ⟨j, hd⟩) = .ok []
    else
      compare_tb_data env (src_db_tbs.get ⟨j, h⟩) (dst_db_tbs.get ⟨j, hd⟩) =
        .ok true

/-! ## DDL-aware table discovery -/

/-- Rust `str::contains` on strings: substring containment. -/
def containsRust (s pat : String) : Bool :=
  decide (pat.toList <:+: s.toList)

/-- The outcome of `DdlParser::parse`:
`(ddl_type, Option<db>, Option<tb>)`. -/
abbrev DdlTriple := DdlType × Option String × Option String

/-- The default schema used when a `CREATE TABLE` carries no database
qualifier (`PUBLIC`). -/
def PUBLIC : String := "public"

/-- One iteration of the `get_compare_db_tbs_from_sqls` loop: lowercase and
trim the statement, skip it unless it starts with `create` and contains
`table`, parse it (`DdlParser::parse(..).unwrap()` panics on a parse
failure), and on a `CreateTable` record `(db (default PUBLIC), tb.unwrap())`. -/
def compare_db_tbs_of_sql (parse : String → Option DdlTriple) (sql : String) :
    RustResult (List DbTb) :=
  let sql := sql.toLower.trim
  if !(sql.startsWith "create" && containsRust sql "table") then
    .ok []
  else
    match (parse sql).unwrapRust with
    | .err m => .err m
    | .panic m => .panic m
    | .ok ddl =>
      if ddl.1 = DdlType.createTable then
        let db :=
          match ddl.2.1 with
          | some db => db
          | Option.none => PUBLIC
        match ddl.2.2.unwrapRust with
        | .err m => .err m
        | .panic m => .panic m
        | .ok tb => .ok [(db, tb)]
      else
        .ok []

/-- `RdbTestRunner::get_compare_db_tbs_from_sqls`, with `DdlParser::parse`
as an explicit input: the `CREATE TABLE` names discovered in a SQL script,
in statement order. -/
def get_compare_db_tbs_from_sqls (parse : String → Option DdlTriple)
    (sqls : List String) : RustResult (List DbTb) :=
  match sqls with
  | [] => .ok []
  | sql :: rest =>
    (compare_db_tbs_of_sql parse sql).bind fun found =>
    (get_compare_db_tbs_from_sqls parse rest).bind fun more =>
    .ok (found ++ more)

/-- `RdbTestRunner::get_compare_db_tbs`: source tables are the `CREATE
TABLE` names of the DDL script extended with those of the DML script; the
destination list routes each source entry through `get_tb_map`. -/
def get_compare_db_tbs (parse : String → Option DdlTriple) (router : RdbRouter)
    (src_ddl_sqls src_dml_sqls : List String) :
    RustResult (List DbTb × List DbTb) :=
  (get_compare_db_tbs_from_sqls parse src_ddl_sqls).bind fun from_ddl =>
  (get_compare_db_tbs_from_sqls parse src_dml_sqls).bind fun from_dml =>
  let src_db_tbs := from_ddl ++ from_dml
  let dst_db_tbs := src_db_tbs.map (fun p => router.get_tb_map p.1 p.2)
  .ok (src_db_tbs, dst_db_tbs)

/-- The filtered-table removal loop of `RdbTestRunner::run_ddl_test`,
`for i in (0..src_db_tbs.len()).rev()`: indices are visited from high to
low and, when the source entry is filtered, removed from BOTH lists.
`remove_filtered_upto filtered n src dst` performs the iterations at
indices below `n`. -/
def remove_filtered_upto (filtered : List DbTb) :
    Nat → List DbTb → List DbTb → List DbTb × List DbTb
  | 0, src_db_tbs, dst_db_tbs => (src_db_tbs, dst_db_tbs)
  | i + 1, src_db_tbs, dst_db_tbs =>
    match src_db_tbs[i]? with
    | some src_db_tb =>
      if src_db_tb ∈ filtered then
        remove_filtered_upto filtered i (src_db_tbs.eraseIdx i) (dst_db_tbs.eraseIdx i)
      else
        remove_filtered_upto filtered i src_db_tbs dst_db_tbs
    | Option.none => remove_filtered_upto filtered i src_db_tbs dst_db_tbs

/-- The whole removal loop of `run_ddl_test`, starting at
`i = src_db_tbs.len() - 1`. -/
def remove_filtered (filtered : List DbTb) (src_db_tbs dst_db_tbs : List DbTb) :
    List DbTb × List DbTb :=
  remove_filtered_upto filtered src_db_tbs.length src_db_tbs dst_db_tbs

/-! ## Concrete fixtures evaluated by witnesses -/

/-- A one-column table meta fixture. -/
def tbMetaC1 : PgTbMeta :=
  { col_type_map := [("c", "int4")], basic := { schema := "s", tb := "t" } }

/-- A check environment whose database returns one row. -/
def envC1 : PgCheckEnv :=
  { get_tb_meta := fun _ _ => .ok tbMetaC1
    from_str := fun _ s => .ok (ColValue.str s)
    get_select_query := fun _ _ => .ok { sql := "q", cols := [], binds := [] }
    get_batch_select_query := fun _ _ => .ok { sql := "q", cols := [], binds := [] }
    fetch := fun _ => [[("c", ColValue.str "a")]]
    router := { tb_map := [], col_map := [] } }

/-- A one-line `Diff` check-log batch. -/
def logC1 : CheckLog :=
  { schema := "s", tb := "t", log_type := LogType.diff,
    cols := ["c"], col_values := [some "a"] }

/-- The row `batch_extract envC1 [logC1]` pushes. -/
def rowC1 : RowData :=
  { schema := "s", tb := "t", row_type := RowType.update,
    before := some [("c", ColValue.str "a")],
    after := some [("c", ColValue.str "a")] }

/-- A table meta with an EMPTY column-type map: every check-log column is
unknown to it. -/
def tbMetaC6 : PgTbMeta :=
  { col_type_map := [], basic := { schema := "s", tb := "t" } }

/-- A check environment resolving `tbMetaC6`. -/
def envC6 : PgCheckEnv :=
  { get_tb_meta := fun _ _ => .ok tbMetaC6
    from_str := fun _ _ => .ok ColValue.none
    get_select_query := fun _ _ => .ok { sql := "q", cols := [], binds := [] }
    get_batch_select_query := fun _ _ => .ok { sql := "q", cols := [], binds := [] }
    fetch := fun _ => []
    router := { tb_map := [], col_map := [] } }

/-- A check-log line naming column `"c"`, unknown to `tbMetaC6`. -/
def logC6 : CheckLog :=
  { schema := "s", tb := "t", log_type := LogType.miss,
    cols := ["c"], col_values := [some "x"] }

/-- A check environment whose value convertor fails with a decode error. -/
def envC6w : PgCheckEnv :=
  { get_tb_meta := fun _ _ => .ok tbMetaC1
    from_str := fun _ _ => .err "Decode"
    get_select_query := fun _ _ => .ok { sql := "q", cols := [], binds := [] }
    get_batch_select_query := fun _ _ => .ok { sql := "q", cols := [], binds := [] }
    fetch := fun _ => []
    router := { tb_map := [], col_map := [] } }

/-- A check environment for the first-entry-dependence witness. -/
def envC10 : PgCheckEnv :=
  { get_tb_meta := fun _ _ => .ok tbMetaC1
    from_str := fun _ s => .ok (ColValue.str s)
    get_select_query := fun _ _ => .ok { sql := "q", cols := [], binds := [] }
    get_batch_select_query := fun _ _ => .ok { sql := "q", cols := [], binds := [] }
    fetch := fun _ => [[("c", ColValue.str "a")]]
    router := { tb_map := [], col_map := [] } }

/-- Head entry shared by the two C10 witness batches. -/
def logC10h : CheckLog :=
  { schema := "s", tb := "t", log_type := LogType.miss,
    cols := ["c"], col_values := [some "1"] }

/-- Second entry of the first witness batch. -/
def logC10a : CheckLog :=
  { schema := "s2", tb := "t", log_type := LogType.miss,
    cols := ["c"], col_values := [some "2"] }

/-- Second entry of the second witness batch: same `cols`/`col_values` as
`logC10a`, different `schema`, `tb` and `log_type`. -/
def logC10b : CheckLog :=
  { schema := "zzz", tb := "qqq", log_type := LogType.diff,
    cols := ["c"], col_values := [some "2"] }

/-- A destination row fixture for the filter-soundness witness. -/
def rowC3 : RowData :=
  { schema := "db", tb := "u1", row_type := RowType.insert,
    before := Option.none, after := some [] }

/-- A comparison environment whose destination is NOT empty at a filtered
table. -/
def envC3bad : CompareEnv :=
  { filtered := [("db", "t1")]
    fetch_src := fun _ => .ok []
    fetch_dst := fun _ => .ok [rowC3]
    src_db_type := DbType.mysql
    dst_db_type := DbType.mysql
    router := { tb_map := [], col_map := [] } }

/-- Source table list of the filter-soundness witness. -/
def srcC3 : List DbTb := [("db", "t1")]

/-- Destination table list of the filter-soundness witness. -/
def dstC3 : List DbTb := [("db", "u1")]

/-- The `DdlParser::parse` stand-in of the C8 witness: every statement
parses as an unqualified `CREATE TABLE t1`. -/
def parseC8 : String → Option DdlTriple :=
  fun _ => some (DdlType.createTable, Option.none, some "t1")

/-- The identity router of the C8 witness. -/
def routerC8 : RdbRouter := { tb_map := [], col_map := [] }

/-! ## Shared lemmas about column-value equality -/

theorem FloatRepr.eqRust_implies_eq {a b : FloatRepr} (h : a.eqRust b = true) : a = b := by
  cases a <;> cases b <;> simp_all [FloatRepr.eqRust]

theorem FloatRepr.eqRust_commutes (a b : FloatRepr) : a.eqRust b = b.eqRust a := by
  cases a <;> cases b <;> simp [FloatRepr.eqRust, BEq.comm]

theorem ColValue.eqRust_eq {v w : ColValue} (h : v.eqRust w = true) : v = w := by
  cases v <;> cases w <;> simp_all [ColValue.eqRust]
  case float.float a b => exact FloatRepr.eqRust_implies_eq h
  case double.double a b => exact FloatRepr.eqRust_implies_eq h

theorem ColValue.eqRust_self_or_nan (v : ColValue) :
    v.eqRust v = true ∨ v.is_nan = true := by
  cases v <;> simp [ColValue.eqRust, ColValue.is_nan]
  case float a => cases a <;> simp [FloatRepr.eqRust]
  case double a => cases a <;> simp [FloatRepr.eqRust]

theorem ColValue.eqRust_comm (v w : ColValue) : v.eqRust w = w.eqRust v := by
  cases v <;> cases w <;>
    simp [ColValue.eqRust, FloatRepr.eqRust_commutes, BEq.comm]

/-- On a single engine pair the third branch of `compare_col_value` is dead:
the comparison is tagged equality or the both-NaN escape. -/
theorem compare_col_value_same_engine (v w : ColValue) (e : DbType) :
    compare_col_value v w e e = (v.eqRust w || (v.is_nan && w.is_nan)) := by
  by_cases h : v.eqRust w = true
  · simp [compare_col_value, h]
  · have h' : v.eqRust w = false := by revert h; cases v.eqRust w <;> simp
    simp [compare_col_value, h']

/-- The trace of one `for (_, meta)` loop of the struct extractor: the
accumulated events followed by one push per fetched model, in order. -/
theorem push_loop_eq (db : String) (fetched : List (String × StructModel))
    (acc : List MysqlExtractEvent) :
    push_loop db fetched acc =
      acc ++ fetched.map (fun p => MysqlExtractEvent.push (push_dt_data db p.2)) := by
  induction fetched generalizing acc with
  | nil => simp [push_loop]
  | cons p rest ih =>
    simp only [push_loop, List.foldl_cons, List.map_cons]
    rw [show List.foldl _ (acc ++ [MysqlExtractEvent.push (push_dt_data db p.2)]) rest =
        push_loop db rest (acc ++ [MysqlExtractEvent.push (push_dt_data db p.2)]) from rfl,
      ih]
    simp

/-- **C2.** `compare_col_value(src, dst, src_db_type, dst_db_type)` applies
its rules in order: true on tagged equality; otherwise true when both values
are NaN; otherwise, across distinct engine types, the equality of the
`to_option_string()` projections; otherwise false.  In particular
`compare_col_value(NaN, NaN, *, *) = true` for every pair of engine types,
and across distinct engine types equal string projections compare equal. -/
theorem compare_col_value_rules (v w : ColValue) (s d : DbType) :
    (v.eqRust w = true → compare_col_value v w s d = true) ∧
    (v.eqRust w = false → (v.is_nan && w.is_nan) = true →
      compare_col_value v w s d = true) ∧
    (v.eqRust w = false → (v.is_nan && w.is_nan) = false → s ≠ d →
      compare_col_value v w s d = (v.to_option_string == w.to_option_string)) ∧
    (v.eqRust w = false → (v.is_nan && w.is_nan) = false → s = d →
      compare_col_value v w s d = false) ∧
    (v.is_nan = true → w.is_nan = true → compare_col_value v w s d = true) ∧
    (s ≠ d → v.to_option_string = w.to_option_string →
      compare_col_value v w s d = true) := by
  refine ⟨?_, ?_, ?_, ?_, ?_, ?_⟩
  · intro h; simp [compare_col_value, h]
  · intro h hnan; simp [compare_col_value, h, hnan]
  · intro h hnan hne; simp [compare_col_value, h, hnan, hne]
  · intro h hnan he; simp [compare_col_value, h, hnan, he]
  · intro hv hw
    by_cases h : v.eqRust w = true
    · simp [compare_col_value, h]
    · have h' : v.eqRust w = false := by revert h; cases v.eqRust w <;> simp
      simp [compare_col_value, h', hv, hw]
  · intro hne hs
    by_cases h : v.eqRust w = true
    · simp [compare_col_value, h]
    · have h' : v.eqRust w = false := by revert h; cases v.eqRust w <;> simp
      by_cases hnan : (v.is_nan && w.is_nan) = true
      · simp [compare_col_value, h', hnan]
      · have hnan' : (v.is_nan && w.is_nan) = false := by
          revert hnan; cases (v.is_nan && w.is_nan) <;> simp
        simp [compare_col_value, h', hnan', hne, hs]

/-- **C2 witness.** The NaN law at a concrete input: a `float NaN` against a
`double NaN` on a single engine. -/
theorem compare_col_value_rules_witness :
    compare_col_value (ColValue.float FloatRepr.nan) (ColValue.double FloatRepr.nan)
      DbType.mysql DbType.mysql = true :=
  (compare_col_value_rules (ColValue.float FloatRepr.nan)
      (ColValue.double FloatRepr.nan) DbType.mysql DbType.mysql).2.2.2.2.1
    (by decide) (by decide)

/-- **C9.** For every fixed engine type `e`, the relation
`compare_col_value(v, w, e, e) = true` (source and destination engine equal)
is an equivalence relation: reflexive, symmetric and transitive. -/
theorem compare_col_value_equivalence (e : DbType) :
    Equivalence (fun v w : ColValue => compare_col_value v w e e = true) := by
  constructor
  · intro v
    rw [compare_col_value_same_engine]
    rcases ColValue.eqRust_self_or_nan v with h | h <;> simp [h]
  · intro v w h
    rw [compare_col_value_same_engine] at h ⊢
    rw [ColValue.eqRust_comm w v, Bool.and_comm]
    exact h
  · intro u v w h1 h2
    rw [compare_col_value_same_engine] at h1 h2 ⊢
    simp only [Bool.or_eq_true, Bool.and_eq_true] at h1 h2 ⊢
    rcases h1 with h1 | h1
    · have := ColValue.eqRust_eq h1
      subst this
      exact h2
    · rcases h2 with h2 | h2
      · have := ColValue.eqRust_eq h2
        subst this
        exact Or.inr h1
      · exact Or.inr ⟨h1.1, h2.2⟩

/-- **C9 witness.** Reflexivity at a concrete value on a concrete engine. -/
theorem compare_col_value_equivalence_witness :
    compare_col_value (ColValue.long 1) (ColValue.long 1) DbType.pg DbType.pg = true :=
  (compare_col_value_equivalence DbType.pg).refl (ColValue.long 1)

/-- **C5.** `MysqlStructExtractor::extract_internal` emits, for the
configured schema, one `DdlData` with `ddl_type: Unknown` and
`meta: Some(model)` per in-scope object, all tables first, then all indexes,
then all constraints, and terminates by invoking `wait_task_finish`. -/
theorem mysql_struct_extract_internal_trace (db : String)
    (tables indexes constraints : List (String × StructModel)) :
    extract_internal db tables indexes constraints =
      ((tables ++ indexes ++ constraints).map
          (fun p => MysqlExtractEvent.push
            { schema := db, query := "", meta := some p.2,
              ddl_type := DdlType.unknown })) ++
        [MysqlExtractEvent.waitTaskFinish] := by
  simp [extract_internal, push_loop_eq, push_dt_data]

/-! ## Lemmas about the comparison loops -/

/-- The only panic the column loop can raise is `unwrap` on a missing
destination column. -/
theorem compare_cols_panic_msg (sdb ddb : DbType)
    (cm : Option (List (String × String))) (dstv : ColMap) :
    ∀ l m, compare_cols sdb ddb cm dstv l = .panic m → m = unwrapNoneMsg := by
  intro l
  induction l with
  | nil => intro m h; simp [compare_cols] at h
  | cons p rest ih =>
    intro m h
    obtain ⟨c, v⟩ := p
    rw [compare_cols] at h
    cases hlo : lookupAssoc dstv (map_src_col cm c) with
    | none =>
      rw [hlo] at h
      simp [Option.unwrapRust] at h
      exact h.symm
    | some dv =>
      rw [hlo] at h
      simp only [Option.unwrapRust] at h
      by_cases hc : compare_col_value v dv sdb ddb = true
      · simp only [hc, if_true] at h
        exact ih m h
      · simp only [hc, if_false, Bool.false_eq_true] at h
        simp at h

/-- The only panics the row loop can raise are `unwrap` on a missing after
image or column, or indexing past the destination list; never the length
assertion. -/
theorem compare_rows_panic_msg (sdb ddb : DbType)
    (cm : Option (List (String × String))) :
    ∀ ss ds m, compare_rows sdb ddb cm ss ds = .panic m →
      m = unwrapNoneMsg ∨ m = indexOobMsg := by
  intro ss
  induction ss with
  | nil => intro ds m h; simp [compare_rows] at h
  | cons s ss ih =>
    intro ds m h
    cases ds with
    | nil =>
      rw [compare_rows] at h
      simp at h
      exact Or.inr h.symm
    | cons d ds =>
      rw [compare_rows] at h
      cases hs : s.after with
      | none =>
        rw [hs] at h
        simp [Option.unwrapRust] at h
        exact Or.inl h.symm
      | some sa =>
        rw [hs] at h
        simp only [Option.unwrapRust] at h
        cases hd : d.after with
        | none =>
          rw [hd] at h
          simp [Option.unwrapRust] at h
          exact Or.inl h.symm
        | some da =>
          rw [hd] at h
          simp only [Option.unwrapRust] at h
          cases hc : compare_cols sdb ddb cm da sa with
          | err m' => rw [hc] at h; simp at h
          | panic m' =>
            rw [hc] at h
            simp at h
            exact Or.inl (h ▸ compare_cols_panic_msg sdb ddb cm da sa m' hc)
          | ok matched =>
            rw [hc] at h
            cases matched with
            | true => exact ih ds m h
            | false => simp at h

/-- **C7.** `compare_row_data` requires its `src_data` and `dst_data`
vectors to have equal length: unequal lengths are fatal (the `assert_eq!`
panic, not a boolean return); under equal lengths the length assertion never
fires and the function proceeds to the pairwise row comparison. -/
theorem compare_row_data_length_assertion (sdb ddb : DbType)
    (src_data dst_data : List RowData)
    (cm : Option (List (String × String))) :
    (src_data.length ≠ dst_data.length →
      compare_row_data sdb ddb src_data dst_data cm = .panic assertEqLenMsg) ∧
    (src_data.length = dst_data.length →
      compare_row_data sdb ddb src_data dst_data cm =
        compare_rows sdb ddb cm src_data dst_data ∧
      compare_row_data sdb ddb src_data dst_data cm ≠ .panic assertEqLenMsg) := by
  constructor
  · intro h; simp [compare_row_data, h]
  · intro h
    have he : compare_row_data sdb ddb src_data dst_data cm =
        compare_rows sdb ddb cm src_data dst_data := by
      simp [compare_row_data, h]
    refine ⟨he, ?_⟩
    rw [he]
    intro hcontra
    rcases compare_rows_panic_msg sdb ddb cm src_data dst_data assertEqLenMsg
        hcontra with h1 | h1 <;>
      exact absurd h1 (by decide)

/-- **C7 witness.** One source row against an empty destination: the length
assertion fires. -/
theorem compare_row_data_length_assertion_witness :
    compare_row_data DbType.mysql DbType.mysql
      [{ schema := "d", tb := "t", row_type := RowType.insert,
         before := Option.none, after := some [] }] [] Option.none =
      .panic assertEqLenMsg :=
  (compare_row_data_length_assertion DbType.mysql DbType.mysql
      [{ schema := "d", tb := "t", row_type := RowType.insert,
         before := Option.none, after := some [] }] [] Option.none).1
    (by decide)

/-- On completion (any `Ok` return), the index loop of
`compare_data_for_tbs` yields `true`. -/
theorem compare_tbs_from_ok (env : CompareEnv) (src dst : List DbTb) :
    ∀ n i compared b, src.length - i ≤ n →
      compare_tbs_from env src dst i = (compared, .ok b) → b = true := by
  intro n
  induction n with
  | zero =>
    intro i compared b hn h
    have hi : ¬ i < src.length := by omega
    rw [compare_tbs_from] at h
    simp [hi] at h
    exact h.2
  | succ n ih =>
    intro i compared b hn h
    by_cases hi : i < src.length
    · rw [compare_tbs_from] at h
      simp only [hi, dite_true, dif_pos] at h
      by_cases hf : src.get ⟨i, hi⟩ ∈ env.filtered
      · simp only [hf, if_true] at h
        cases hq : (indexRust dst i).bind env.fetch_dst with
        | err m => rw [hq] at h; simp at h
        | panic m => rw [hq] at h; simp at h
        | ok dst_data =>
          rw [hq] at h
          cases dst_data with
          | nil =>
            simp at h
            exact ih (i + 1) compared b (by omega) h
          | cons x xs => simp at h
      · simp only [hf, if_false] at h
        cases hq : (indexRust dst i).bind
            (fun dst_db_tb => compare_tb_data env (src.get ⟨i, hi⟩) dst_db_tb) with
        | err m => rw [hq] at h; simp at h
        | panic m => rw [hq] at h; simp at h
        | ok matched =>
          rw [hq] at h
          cases matched with
          | true =>
            rcases hrec : compare_tbs_from env src dst (i + 1) with ⟨c', o'⟩
            rw [hrec] at h
            simp at h
            rw [h.2] at hrec
            exact ih (i + 1) c' b (by omega) hrec
          | false => simp at h
    · rw [compare_tbs_from] at h
      simp [hi] at h
      exact h.2

/-- **C4.** Whenever `compare_data_for_tbs` returns a value (rather than
failing fatally or propagating an `Err`), that value is `Ok(true)`; it never
returns `Ok(false)`, even when an intermediate `compare_tb_data` returns
false (that case is a fatal `assert!`). -/
theorem compare_data_for_tbs_ok_true (env : CompareEnv)
    (src_db_tbs dst_db_tbs : List DbTb) (compared : List Nat) (b : Bool) :
    compare_data_for_tbs env src_db_tbs dst_db_tbs = (compared, .ok b) →
      b = true :=
  fun h =>
    compare_tbs_from_ok env src_db_tbs dst_db_tbs src_db_tbs.length 0 compared b
      (by omega) h

/-- **C4 witness.** The empty table list completes with `Ok(true)`. -/
theorem compare_data_for_tbs_ok_true_witness :
    (true : Bool) = true :=
  compare_data_for_tbs_ok_true
    { filtered := []
      fetch_src := fun _ => .ok []
      fetch_dst := fun _ => .ok []
      src_db_type := DbType.mysql
      dst_db_type := DbType.mysql
      router := { tb_map := [], col_map := [] } }
    [] [] [] true (by rw [compare_data_for_tbs, compare_tbs_from]; simp)

/-! ## Lemmas about the check-extractor push path -/

/-- Routing preserves the row type and applies the same rename to both
images; in particular equal images stay equal and a missing image stays
missing. -/
theorem route_row_fields (r : RdbRouter) (row : RowData) :
    (r.route_row row).row_type = row.row_type ∧
    (row.before = row.after → (r.route_row row).before = (r.route_row row).after) ∧
    (row.before = Option.none → (r.route_row row).before = Option.none) := by
  rcases hr : r.get_tb_map row.schema row.tb with ⟨ddb, dtb⟩
  refine ⟨?_, ?_, ?_⟩
  · cases hcm : r.get_col_map row.schema row.tb <;>
      simp [RdbRouter.route_row, hr, hcm]
  · intro h
    cases hcm : r.get_col_map row.schema row.tb <;>
      simp [RdbRouter.route_row, hr, hcm, h]
  · intro h
    cases hcm : r.get_col_map row.schema row.tb <;>
      simp [RdbRouter.route_row, hr, hcm, h]

/-- On a `Diff` batch every pushed row is an `Update` whose before image is
the copy of its after image. -/
theorem push_transform_diff (router : RdbRouter) (tm : PgTbMeta) (row : PgRow) :
    (push_transform LogType.diff router tm row).row_type = RowType.update ∧
    (push_transform LogType.diff router tm row).before =
      (push_transform LogType.diff router tm row).after := by
  have hb := route_row_fields router
    { schema := tm.basic.schema, tb := tm.basic.tb, row_type := RowType.update,
      before := some row, after := some row }
  constructor
  · simpa [push_transform, from_pg_row, build_insert_row_data] using hb.1
  · exact by
      simpa [push_transform, from_pg_row, build_insert_row_data] using hb.2.1 rfl

/-- On any other batch kind every pushed row keeps its original `Insert`
row type and has no before image. -/
theorem push_transform_not_diff (lt : LogType) (hlt : lt ≠ LogType.diff)
    (router : RdbRouter) (tm : PgTbMeta) (row : PgRow) :
    (push_transform lt router tm row).row_type = RowType.insert ∧
    (push_transform lt router tm row).before = Option.none := by
  have hb := route_row_fields router
    { schema := tm.basic.schema, tb := tm.basic.tb, row_type := RowType.insert,
      before := Option.none, after := some row }
  constructor
  · simpa [push_transform, from_pg_row, build_insert_row_data, hlt] using hb.1
  · exact by
      simpa [push_transform, from_pg_row, build_insert_row_data, hlt]
        using hb.2.2 rfl

/-- **C1.** In every non-empty check-log batch accepted by
`PgCheckExtractor::batch_extract`: when the first entry's `log_type` is
`Diff`, every row fetched from the database and pushed onto the buffer has
`row_type = Update` and its before image equal to a copy of its after image;
for any other `log_type` the fetched rows are pushed unchanged, with their
original `Insert` row type and no before image. -/
theorem pg_check_batch_extract_diff_rows (env : PgCheckEnv) (first : CheckLog)
    (rest : List CheckLog) (pushed : List RowData) :
    batch_extract env (first :: rest) = (pushed, .ok ()) →
    (first.log_type = LogType.diff →
      ∀ r ∈ pushed, r.row_type = RowType.update ∧ r.before = r.after) ∧
    (first.log_type ≠ LogType.diff →
      ∀ r ∈ pushed, r.row_type = RowType.insert ∧ r.before = Option.none) := by
  intro h
  simp only [batch_extract] at h
  split at h
  · simp at h
  · simp at h
  · rename_i tm heq_tm
    split at h
    · simp at h
    · simp at h
    · rename_i crd heq_crd
      split at h
      · simp at h
      · simp at h
      · rename_i q heq_q
        have hp : pushed =
            (env.fetch q).map (push_transform first.log_type env.router tm) := by
          have hfst := congrArg Prod.fst h
          simpa using hfst.symm
        subst hp
        constructor
        · intro hd r hr
          rcases List.mem_map.mp hr with ⟨row, _, rfl⟩
          rw [hd]
          exact push_transform_diff env.router tm row
        · intro hd r hr
          rcases List.mem_map.mp hr with ⟨row, _, rfl⟩
          exact push_transform_not_diff first.log_type hd env.router tm row

/-- **C1 witness.** The concrete `Diff` batch `[logC1]` pushes exactly
`rowC1`, an `Update` row whose before image equals its after image. -/
theorem pg_check_batch_extract_diff_rows_witness :
    rowC1.row_type = RowType.update ∧ rowC1.before = rowC1.after :=
  (pg_check_batch_extract_diff_rows envC1 logC1 [] [rowC1] (by decide)).1
    (by decide) rowC1 (by simp)

/-- **C6 counterexample.** A check-log column name unknown to the table meta
does NOT surface as an `Error` result of `batch_extract`: on the concrete
batch `[logC6]` against the empty column-type map of `tbMetaC6` the function
panics (`unwrap` on `None`), which is not an `Err` return. -/
theorem pg_check_unknown_col_panics :
    (batch_extract envC6 [logC6]).2 = .panic unwrapNoneMsg ∧
    RustResult.isErr (batch_extract envC6 [logC6]).2 = false := by
  exact ⟨rfl, rfl⟩

/-- **C6 (amended).** During check-row construction in the PG check
extractor, missing table meta and an unparseable column value surface as an
`Error` result of `batch_extract`; a check-log column name absent from
`TbMeta.col_type_map` instead causes a panic (`unwrap` on `None`).  In every
one of these cases the batch is aborted: no rows are pushed (an `Err` or
panic outcome always carries an empty push list). -/
theorem pg_check_error_handling (env : PgCheckEnv) (first : CheckLog)
    (rest : List CheckLog) :
    (∀ m, env.get_tb_meta first.schema first.tb = .err m →
      batch_extract env (first :: rest) = ([], .err m)) ∧
    (∀ tm m, env.get_tb_meta first.schema first.tb = .ok tm →
      build_check_row_datas env (first :: rest) tm = .err m →
      batch_extract env (first :: rest) = ([], .err m)) ∧
    (∀ tm c cs v vs, env.get_tb_meta first.schema first.tb = .ok tm →
      first.cols = c :: cs → first.col_values = v :: vs →
      lookupAssoc tm.col_type_map c = Option.none →
      batch_extract env (first :: rest) = ([], .panic unwrapNoneMsg)) ∧
    (∀ tm c cs s vs ct m, env.get_tb_meta first.schema first.tb = .ok tm →
      first.cols = c :: cs → first.col_values = some s :: vs →
      lookupAssoc tm.col_type_map c = some ct →
      env.from_str ct s = .err m →
      batch_extract env (first :: rest) = ([], .err m)) ∧
    (∀ logs pushed m, batch_extract env logs = (pushed, .err m) → pushed = []) ∧
    (∀ logs pushed m, batch_extract env logs = (pushed, .panic m) → pushed = []) := by
  refine ⟨?_, ?_, ?_, ?_, ?_, ?_⟩
  · intro m hm
    simp [batch_extract, hm]
  · intro tm m hm hb
    simp [batch_extract, hm, hb]
  · intro tm c cs v vs hm hcols hvals hlook
    have hb : build_check_row_datas env (first :: rest) tm =
        .panic unwrapNoneMsg := by
      simp [build_check_row_datas, hcols, hvals, build_after, hlook,
        Option.unwrapRust]
    simp [batch_extract, hm, hb]
  · intro tm c cs s vs ct m hm hcols hvals hlook hconv
    have hb : build_check_row_datas env (first :: rest) tm = .err m := by
      simp [build_check_row_datas, hcols, hvals, build_after, hlook,
        Option.unwrapRust, hconv]
    simp [batch_extract, hm, hb]
  · intro logs pushed m h
    cases logs with
    | nil => simp [batch_extract] at h
    | cons f r =>
      simp only [batch_extract] at h
      split at h
      · exact (congrArg Prod.fst h).symm
      · exact (congrArg Prod.fst h).symm
      · split at h
        · exact (congrArg Prod.fst h).symm
        · exact (congrArg Prod.fst h).symm
        · split at h
          · exact (congrArg Prod.fst h).symm
          · exact (congrArg Prod.fst h).symm
          · simp at h
  · intro logs pushed m h
    cases logs with
    | nil => simp [batch_extract] at h
    | cons f r =>
      simp only [batch_extract] at h
      split at h
      · exact (congrArg Prod.fst h).symm
      · exact (congrArg Prod.fst h).symm
      · split at h
        · exact (congrArg Prod.fst h).symm
        · exact (congrArg Prod.fst h).symm
        · split at h
          · exact (congrArg Prod.fst h).symm
          · exact (congrArg Prod.fst h).symm
          · simp at h

/-- **C6 witness (amended).** A concrete unparseable value: the convertor of
`envC6w` fails with `"Decode"`, and `batch_extract` surfaces exactly
`([], Err "Decode")`. -/
theorem pg_check_error_handling_witness :
    batch_extract envC6w [logC6] = ([], .err "Decode") :=
  (pg_check_error_handling envC6w logC6 []).2.2.2.1 tbMetaC1 "c" [] "x" []
    "int4" "Decode" rfl rfl rfl (by decide) rfl

/-- `build_check_row_datas` reads only the `cols` and `col_values` fields of
the check-log entries. -/
theorem build_check_row_datas_congr (env : PgCheckEnv) (tm : PgTbMeta) :
    ∀ logs1 logs2 : List CheckLog,
      logs1.map (fun l => (l.cols, l.col_values)) =
        logs2.map (fun l => (l.cols, l.col_values)) →
      build_check_row_datas env logs1 tm = build_check_row_datas env logs2 tm := by
  intro logs1
  induction logs1 with
  | nil =>
    intro logs2 h
    cases logs2 with
    | nil => rfl
    | cons l2 r2 => simp at h
  | cons l1 r1 ih =>
    intro logs2 h
    cases logs2 with
    | nil => simp at h
    | cons l2 r2 =>
      simp only [List.map_cons, List.cons.injEq, Prod.mk.injEq] at h
      obtain ⟨⟨hc, hv⟩, hrest⟩ := h
      simp only [build_check_row_datas]
      rw [hc, hv, ih r2 hrest]

/-- **C10.** `PgCheckExtractor::batch_extract` reads the `schema`, `tb` and
`log_type` fields only from the first entry of a non-empty batch: two
batches with identical first entries and identical per-entry
`cols`/`col_values` (so differing at most in the `schema`, `tb` or
`log_type` of entries at index 1 or later) resolve the same table meta,
build the same query, and produce the same outcome with the same pushed
rows; the empty batch is `Ok(())` with no pushes. -/
theorem batch_extract_first_entry_only (env : PgCheckEnv)
    (logs1 logs2 : List CheckLog) :
    (logs1.head? = logs2.head? →
      logs1.map (fun l => (l.cols, l.col_values)) =
        logs2.map (fun l => (l.cols, l.col_values)) →
      batch_extract env logs1 = batch_extract env logs2) ∧
    batch_extract env [] = ([], .ok ()) := by
  constructor
  · intro hhead hfields
    cases logs1 with
    | nil =>
      cases logs2 with
      | nil => rfl
      | cons l2 r2 => simp at hfields
    | cons f1 r1 =>
      cases logs2 with
      | nil => simp at hfields
      | cons f2 r2 =>
        have hf : f1 = f2 := by simpa using hhead
        subst hf
        have hlen : (f1 :: r1).length = (f1 :: r2).length := by
          have := congrArg List.length hfields
          simpa using this
        cases hm : env.get_tb_meta f1.schema f1.tb with
        | err m => simp [batch_extract, hm]
        | panic m => simp [batch_extract, hm]
        | ok tm =>
          simp only [batch_extract, hm]
          rw [build_check_row_datas_congr env tm (f1 :: r1) (f1 :: r2) hfields,
            hlen]
  · rfl

/-- **C10 witness.** Two concrete two-line batches whose second entries
differ in `schema`, `tb` and `log_type` but agree on `cols`/`col_values`
produce identical results. -/
theorem batch_extract_first_entry_only_witness :
    batch_extract envC10 [logC10h, logC10a] =
      batch_extract envC10 [logC10h, logC10b] :=
  (batch_extract_first_entry_only envC10 [logC10h, logC10a]
      [logC10h, logC10b]).1 rfl (by decide)

/-! ## Lemmas about the compare_data_for_tbs index loop -/

theorem RustResult.bind_eq_ok {α β : Type} {a : RustResult α}
    {f : α → RustResult β} {b : β} :
    RustResult.bind a f = .ok b ↔ ∃ v, a = .ok v ∧ f v = .ok b := by
  cases a <;> simp [RustResult.bind]

theorem indexRust_eq_ok {α : Type} {l : List α} {i : Nat} {v : α} :
    indexRust l i = .ok v ↔ l[i]? = some v := by
  unfold indexRust
  cases h : l[i]? <;> simp

theorem indexRust_of_lt {α : Type} (l : List α) {i : Nat} (h : i < l.length) :
    indexRust l i = .ok (l.get ⟨i, h⟩) := by
  simp [indexRust, List.getElem?_eq_getElem h, List.get_eq_getElem]

/-- Every index recorded as compared by the loop is at least the start
index and points at an UNfiltered source table. -/
theorem compare_tbs_from_mem (env : CompareEnv) (src dst : List DbTb) :
    ∀ n i compared res, src.length - i ≤ n →
      compare_tbs_from env src dst i = (compared, res) →
      ∀ j ∈ compared, i ≤ j ∧
        ∃ hj : j < src.length, src.get ⟨j, hj⟩ ∉ env.filtered := by
  intro n
  induction n with
  | zero =>
    intro i compared res hn h j hjmem
    have hi : ¬ i < src.length := by omega
    rw [compare_tbs_from] at h
    simp [hi] at h
    rw [h.1] at hjmem
    simp at hjmem
  | succ n ih =>
    intro i compared res hn h j hjmem
    by_cases hi : i < src.length
    · rw [compare_tbs_from] at h
      simp only [hi, dite_true, dif_pos] at h
      by_cases hf : src.get ⟨i, hi⟩ ∈ env.filtered
      · simp only [hf, if_true] at h
        cases hq : (indexRust dst i).bind env.fetch_dst with
        | err m =>
          rw [hq] at h
          replace h : (([] : List Nat), RustResult.err m) = (compared, res) := h
          injection h with h1 h2
          subst h1
          simp at hjmem
        | panic m =>
          rw [hq] at h
          replace h : (([] : List Nat), RustResult.panic m) = (compared, res) := h
          injection h with h1 h2
          subst h1
          simp at hjmem
        | ok dst_data =>
          rw [hq] at h
          cases dst_data with
          | nil =>
            replace h : compare_tbs_from env src dst (i + 1) = (compared, res) := h
            obtain ⟨hij, hrest⟩ := ih (i + 1) compared res (by omega) h j hjmem
            exact ⟨by omega, hrest⟩
          | cons x xs =>
            replace h : (([] : List Nat), RustResult.panic assertFailedMsg) =
                (compared, res) := h
            injection h with h1 h2
            subst h1
            simp at hjmem
      · simp only [hf, if_false] at h
        cases hq : (indexRust dst i).bind
            (fun dst_db_tb => compare_tb_data env (src.get ⟨i, hi⟩) dst_db_tb) with
        | err m =>
          rw [hq] at h
          replace h : (([] : List Nat), RustResult.err m) = (compared, res) := h
          injection h with h1 h2
          subst h1
          simp at hjmem
        | panic m =>
          rw [hq] at h
          replace h : (([] : List Nat), RustResult.panic m) = (compared, res) := h
          injection h with h1 h2
          subst h1
          simp at hjmem
        | ok matched =>
          rw [hq] at h
          cases matched with
          | true =>
            rcases hrec : compare_tbs_from env src dst (i + 1) with ⟨c', o'⟩
            rw [hrec] at h
            replace h : (i :: c', o') = (compared, res) := h
            injection h with h1 h2
            subst h1
            rcases List.mem_cons.mp hjmem with rfl | hjc
            · exact ⟨Nat.le_refl j, ⟨hi, hf⟩⟩
            · obtain ⟨hij, hrest⟩ := ih (i + 1) c' o' (by omega) hrec j hjc
              exact ⟨by omega, hrest⟩
          | false =>
            replace h : (([] : List Nat), RustResult.panic assertFailedMsg) =
                (compared, res) := h
            injection h with h1 h2
            subst h1
            simp at hjmem
    · rw [compare_tbs_from] at h
      simp [hi] at h
      rw [h.1] at hjmem
      simp at hjmem

/-- On a completed loop (`Ok` outcome) every filtered index from the start
onward fetched an empty destination and was NOT compared, and every
unfiltered index WAS compared. -/
theorem compare_tbs_from_success (env : CompareEnv) (src dst : List DbTb) :
    ∀ n i compared b, src.length - i ≤ n →
      compare_tbs_from env src dst i = (compared, .ok b) →
      ∀ j (hj : j < src.length), i ≤ j →
        (src.get ⟨j, hj⟩ ∈ env.filtered →
          j ∉ compared ∧
          ∃ hd : j < dst.length, env.fetch_dst (dst.get ⟨j, hd⟩) = .ok []) ∧
        (src.get ⟨j, hj⟩ ∉ env.filtered → j ∈ compared) := by
  intro n
  induction n with
  | zero =>
    intro i compared b hn h j hj hij
    omega
  | succ n ih =>
    intro i compared b hn h j hj hij
    by_cases hi : i < src.length
    case neg => omega
    case pos =>
      rw [compare_tbs_from] at h
      simp only [hi, dite_true, dif_pos] at h
      by_cases hf : src.get ⟨i, hi⟩ ∈ env.filtered
      · simp only [hf, if_true] at h
        cases hq : (indexRust dst i).bind env.fetch_dst with
        | err m =>
          rw [hq] at h
          replace h : (([] : List Nat), RustResult.err m) = (compared, .ok b) := h
          injection h with h1 h2
          simp at h2
        | panic m =>
          rw [hq] at h
          replace h : (([] : List Nat), RustResult.panic m) = (compared, .ok b) := h
          injection h with h1 h2
          simp at h2
        | ok dst_data =>
          rw [hq] at h
          cases dst_data with
          | cons x xs =>
            replace h : (([] : List Nat), RustResult.panic assertFailedMsg) =
                (compared, .ok b) := h
            injection h with h1 h2
            simp at h2
          | nil =>
            replace h : compare_tbs_from env src dst (i + 1) = (compared, .ok b) := h
            obtain ⟨v, hv, hfetch⟩ := RustResult.bind_eq_ok.mp hq
            have hv' := indexRust_eq_ok.mp hv
            have hd : i < dst.length := (List.getElem?_eq_some.mp hv').1
            have hveq : dst.get ⟨i, hd⟩ = v := by
              rw [List.getElem?_eq_getElem hd] at hv'
              exact Option.some.inj hv'
            rcases Nat.eq_or_lt_of_le hij with rfl | hlt
            · refine ⟨fun _ => ⟨?_, ⟨hd, ?_⟩⟩, fun hnf => absurd hf hnf⟩
              · intro hmem
                obtain ⟨hle, _⟩ := compare_tbs_from_mem env src dst
                  (src.length - (i + 1)) (i + 1) compared (.ok b)
                  (by omega) h i hmem
                omega
              · rw [hveq]
                exact hfetch
            · exact ih (i + 1) compared b (by omega) h j hj (by omega)
      · simp only [hf, if_false] at h
        cases hq : (indexRust dst i).bind
            (fun dst_db_tb => compare_tb_data env (src.get ⟨i, hi⟩) dst_db_tb) with
        | err m =>
          rw [hq] at h
          replace h : (([] : List Nat), RustResult.err m) = (compared, .ok b) := h
          injection h with h1 h2
          simp at h2
        | panic m =>
          rw [hq] at h
          replace h : (([] : List Nat), RustResult.panic m) = (compared, .ok b) := h
          injection h with h1 h2
          simp at h2
        | ok matched =>
          rw [hq] at h
          cases matched with
          | false =>
            replace h : (([] : List Nat), RustResult.panic assertFailedMsg) =
                (compared, .ok b) := h
            injection h with h1 h2
            simp at h2
          | true =>
            rcases hrec : compare_tbs_from env src dst (i + 1) with ⟨c', o'⟩
            rw [hrec] at h
            replace h : (i :: c', o') = (compared, .ok b) := h
            injection h with h1 h2
            subst h1
            rw [h2] at hrec
            rcases Nat.eq_or_lt_of_le hij with rfl | hlt
            · exact ⟨fun hff => absurd hff hf,
                fun _ => List.mem_cons_self i c'⟩
            · have hres := ih (i + 1) c' b (by omega) hrec j hj (by omega)
              constructor
              · intro hfil
                obtain ⟨hnotc, hex⟩ := hres.1 hfil
                refine ⟨?_, hex⟩
                intro hmem
                rcases List.mem_cons.mp hmem with rfl | hc
                · omega
                · exact hnotc hc
              · intro hnf
                exact List.mem_cons_of_mem i (hres.2 hnf)

/-- If every index before `k` passes and at `k` the source table is filtered
but the destination fetch is non-empty, the loop dies on the
`assert!(false)`. -/
theorem compare_tbs_from_fatal (env : CompareEnv) (src dst : List DbTb) :
    ∀ n i k, src.length - i ≤ n → i ≤ k →
      ∀ (hk : k < src.length) (hkd : k < dst.length) (d : List RowData),
      (∀ j, i ≤ j → j < k → passes_at env src dst j) →
      src.get ⟨k, hk⟩ ∈ env.filtered →
      env.fetch_dst (dst.get ⟨k, hkd⟩) = .ok d → d ≠ [] →
      (compare_tbs_from env src dst i).2 = .panic assertFailedMsg := by
  intro n
  induction n with
  | zero => intro i k hn hik hk hkd d hpass hfil hfetch hne; omega
  | succ n ih =>
    intro i k hn hik hk hkd d hpass hfil hfetch hne
    have hi : i < src.length := by omega
    rw [compare_tbs_from]
    rw [dif_pos hi]
    rcases Nat.eq_or_lt_of_le hik with rfl | hlt
    · rw [if_pos hfil, indexRust_of_lt dst hkd, RustResult.bind_ok, hfetch]
      cases d with
      | nil => exact absurd rfl hne
      | cons x xs => rfl
    · obtain ⟨hi', hd', hbranch⟩ := hpass i (Nat.le_refl i) hlt
      by_cases hf : src.get ⟨i, hi⟩ ∈ env.filtered
      · rw [if_pos hf, indexRust_of_lt dst hd', RustResult.bind_ok]
        have hfetch0 : env.fetch_dst (dst.get ⟨i, hd'⟩) = .ok [] := by
          rw [if_pos hf] at hbranch
          exact hbranch
        rw [hfetch0]
        show (compare_tbs_from env src dst (i + 1)).2 = .panic assertFailedMsg
        exact ih (i + 1) k (by omega) (by omega) hk hkd d
          (fun j hj1 hj2 => hpass j (by omega) hj2) hfil hfetch hne
      · rw [if_neg hf, indexRust_of_lt dst hd', RustResult.bind_ok]
        have hcmp : compare_tb_data env (src.get ⟨i, hi⟩) (dst.get ⟨i, hd'⟩) =
            .ok true := by
          rw [if_neg hf] at hbranch
          exact hbranch
        rw [hcmp]
        show (compare_tbs_from env src dst (i + 1)).2 = .panic assertFailedMsg
        exact ih (i + 1) k (by omega) (by omega) hk hkd d
          (fun j hj1 hj2 => hpass j (by omega) hj2) hfil hfetch hne

/-- **C3.** In `compare_data_for_tbs`: on every completed run, each index
whose source table appears in the filtered set fetched an EMPTY destination
table and was never handed to `compare_tb_data`, while every unfiltered
index was compared via `compare_tb_data`; and whenever the loop reaches a
filtered index whose destination fetch is non-empty (all earlier indexes
passing), the function fails fatally on its `assert!`. -/
theorem compare_data_for_tbs_filter_soundness (env : CompareEnv)
    (src_db_tbs dst_db_tbs : List DbTb) :
    (∀ compared b,
      compare_data_for_tbs env src_db_tbs dst_db_tbs = (compared, .ok b) →
      ∀ j (hj : j < src_db_tbs.length),
        (src_db_tbs.get ⟨j, hj⟩ ∈ env.filtered →
          j ∉ compared ∧
          ∃ hd : j < dst_db_tbs.length,
            env.fetch_dst (dst_db_tbs.get ⟨j, hd⟩) = .ok []) ∧
        (src_db_tbs.get ⟨j, hj⟩ ∉ env.filtered → j ∈ compared)) ∧
    (∀ k (hk : k < src_db_tbs.length) (hkd : k < dst_db_tbs.length)
        (d : List RowData),
      (∀ j, j < k → passes_at env src_db_tbs dst_db_tbs j) →
      src_db_tbs.get ⟨k, hk⟩ ∈ env.filtered →
      env.fetch_dst (dst_db_tbs.get ⟨k, hkd⟩) = .ok d → d ≠ [] →
      (compare_data_for_tbs env src_db_tbs dst_db_tbs).2 =
        .panic assertFailedMsg) := by
  constructor
  · intro compared b h j hj
    exact compare_tbs_from_success env src_db_tbs dst_db_tbs
      src_db_tbs.length 0 compared b (by omega) h j hj (Nat.zero_le j)
  · intro k hk hkd d hpass hfil hfetch hne
    exact compare_tbs_from_fatal env src_db_tbs dst_db_tbs
      src_db_tbs.length 0 k (by omega) (Nat.zero_le k) hk hkd d
      (fun j _ hj2 => hpass j hj2) hfil hfetch hne

/-- **C3 witness.** A concrete filtered table whose destination holds one
row: the comparison run dies on the assertion. -/
theorem compare_data_for_tbs_filter_soundness_witness :
    (compare_data_for_tbs envC3bad srcC3 dstC3).2 = .panic assertFailedMsg :=
  (compare_data_for_tbs_filter_soundness envC3bad srcC3 dstC3).2 0
    (by decide) (by decide) [rowC3]
    (fun j hj => absurd hj (by omega)) (by decide) rfl (by simp)

/-! ## Lemmas about DDL-aware table discovery -/

/-- Invariant of the reverse removal loop of `run_ddl_test`: running the
iterations below `i` keeps the suffixes from `i` untouched and filters the
prefix pairs below `i` by the source entry's filtered-set membership. -/
theorem remove_filtered_upto_spec (filtered : List DbTb) :
    ∀ i (src dst : List DbTb), i ≤ src.length → src.length = dst.length →
      remove_filtered_upto filtered i src dst =
        ((((src.take i).zip (dst.take i)).filter
            (fun p => !decide (p.1 ∈ filtered))).map Prod.fst ++ src.drop i,
         (((src.take i).zip (dst.take i)).filter
            (fun p => !decide (p.1 ∈ filtered))).map Prod.snd ++ dst.drop i) := by
  intro i
  induction i with
  | zero =>
    intro src dst h1 h2
    simp [remove_filtered_upto]
  | succ i ih =>
    intro src dst h1 h2
    have hi : i < src.length := by omega
    have hid : i < dst.length := by omega
    have hlt : (src.take i).length = i := by simp; omega
    have hld : (dst.take i).length = i := by simp; omega
    have hzl : (src.take i).length = (dst.take i).length := by rw [hlt, hld]
    rw [remove_filtered_upto]
    split
    · rename_i s hs
      have hseq : s = src[i] := by
        rw [List.getElem?_eq_getElem hi] at hs
        exact (Option.some.inj hs).symm
      subst hseq
      by_cases hf : src[i] ∈ filtered
      · rw [if_pos hf, List.eraseIdx_eq_take_drop_succ,
          List.eraseIdx_eq_take_drop_succ,
          ih (src.take i ++ src.drop (i + 1)) (dst.take i ++ dst.drop (i + 1))
            (by simp; omega) (by simp; omega),
          List.take_left' hlt, List.drop_left' hlt, List.take_left' hld,
          List.drop_left' hld, List.take_succ, List.take_succ,
          List.getElem?_eq_getElem hi, List.getElem?_eq_getElem hid,
          List.zip_append hzl, List.filter_append]
        simp [hf]
      · rw [if_neg hf, ih src dst (by omega) h2,
          List.drop_eq_getElem_cons hi, List.drop_eq_getElem_cons hid,
          List.take_succ, List.take_succ,
          List.getElem?_eq_getElem hi, List.getElem?_eq_getElem hid,
          List.zip_append hzl, List.filter_append]
        simp [hf]
    · rename_i hs
      rw [List.getElem?_eq_getElem hi] at hs
      simp at hs

/-- **C8.** `get_compare_db_tbs` returns as source list the `CREATE TABLE`
names parsed from the DDL script united (concatenated) with those parsed
from the DML script, the destination list routing each source entry through
`get_tb_map`; and the removal loop of `run_ddl_test` removes exactly the
entries whose source table appears in `filtered_tbs.txt` from BOTH lists
before comparison. -/
theorem get_compare_db_tbs_union_and_filter
    (parse : String → Option DdlTriple) (router : RdbRouter)
    (filtered : List DbTb) (src_ddl_sqls src_dml_sqls : List String)
    (from_ddl from_dml : List DbTb) :
    (get_compare_db_tbs_from_sqls parse src_ddl_sqls = .ok from_ddl →
     get_compare_db_tbs_from_sqls parse src_dml_sqls = .ok from_dml →
     get_compare_db_tbs parse router src_ddl_sqls src_dml_sqls =
       .ok (from_ddl ++ from_dml,
            (from_ddl ++ from_dml).map (fun p => router.get_tb_map p.1 p.2))) ∧
    (∀ src dst : List DbTb, src.length = dst.length →
      remove_filtered filtered src dst =
        (((src.zip dst).filter (fun p => !decide (p.1 ∈ filtered))).map Prod.fst,
         ((src.zip dst).filter (fun p => !decide (p.1 ∈ filtered))).map Prod.snd)) := by
  constructor
  · intro h1 h2
    simp [get_compare_db_tbs, h1, h2]
  · intro src dst hlen
    unfold remove_filtered
    rw [remove_filtered_upto_spec filtered src.length src dst (Nat.le_refl _) hlen]
    have hdt : dst.take src.length = dst := by rw [hlen, List.take_length]
    have hdd : dst.drop src.length = [] := by rw [hlen, List.drop_length]
    simp [List.take_length, List.drop_length, hdt, hdd]

/-- **C8 witness.** Empty scripts give empty lists, and the removal loop
empties a pair of singleton lists whose source entry is filtered. -/
theorem get_compare_db_tbs_union_and_filter_witness :
    get_compare_db_tbs parseC8 routerC8 [] [] = .ok ([], []) ∧
    remove_filtered [("public", "t1")] [("public", "t1")] [("public", "t1")] =
      ([], []) := by
  constructor
  · exact (get_compare_db_tbs_union_and_filter parseC8 routerC8
      [("public", "t1")] [] [] [] []).1 rfl rfl
  · exact (get_compare_db_tbs_union_and_filter parseC8 routerC8
      [("public", "t1")] [] [] [] []).2 [("public", "t1")] [("public", "t1")] rfl
